import Mathlib

/-!
Verification of the LufyKMS-Platform document retrieval core.

This file gives a shallow embedding, in Lean 4, of the core algorithms of the
LufyKMS knowledge-management system (text chunking, vector math, embedding
generation with caching, and the vector-search pipeline with its two-level
cache), together with theorems settling the specified properties.

Modelling conventions:
- JavaScript strings are lists of characters; string indices are natural
  numbers, with the JS sentinel value -1 of lastIndexOf kept as an integer.
- JavaScript numbers are modelled exactly: by rationals where the code only
  moves data around (embedding vectors in the caching layer), and by reals
  extended with the IEEE special values NaN and plus or minus infinity where
  the code divides by a possibly-zero norm (cosine similarity).  The literal
  0.8 of the chunk-boundary test is modelled as the exact rational 4/5.
- The md5 content hash used as an embedding-cache key is modelled as the
  identity keying (hashing is injective up to collisions, which are ignored).
- Maps are association lists, newest entry first; Map.set is modelled by
  consing, Map.get by the first matching entry.
-/

namespace LufyKMS

/-- JS strings are modelled as lists of characters. -/
abbrev Str := List Char

/-- Characters removed by the JS String.prototype.trim (the common
whitespace and line-terminator characters). -/
def isJSWhitespace (c : Char) : Bool :=
  c == ' ' || c == '\t' || c == '\n' || c == '\r' || c == '\x0B' || c == '\x0C'

/-- JS String.prototype.trim: strip whitespace from both ends. -/
def jsTrim (s : Str) : Str :=
  ((s.dropWhile isJSWhitespace).reverse.dropWhile isJSWhitespace).reverse

/-- JS String.prototype.substring(a, b) for a less or equal b: the characters
at indices a, ..., b-1. -/
def jsSubstring (s : Str) (a b : ℕ) : Str :=
  (s.take b).drop a

/-- JS String.prototype.lastIndexOf(c, f): the largest index i less or equal f
holding character c, or -1 when there is none (searching backwards from f). -/
def lastIndexOf (s : Str) (c : Char) : ℕ → ℤ
  | 0 => if s.get? 0 == some c then 0 else -1
  | f + 1 => if s.get? (f + 1) == some c then (f : ℤ) + 1 else lastIndexOf s c f

/-!
## TextSplitter (src/packages/core/src/utils/textSplitter.ts)

splitIntoChunks advances a cursor; the naive cut is cursor + maxChars; when
that cut is strictly inside the text, the last '.', newline or space at or
before the cut is taken as boundary whenever it lies strictly beyond
cursor + 0.8 * maxChars (modelled exactly: 5 * boundary > 5 * cursor +
4 * maxChars), and the chunk then ends one past the boundary character.
Each chunk is trimmed; empty chunks are dropped.

The JS while-loop is modelled with explicit fuel; text.length steps suffice
for every maxChars at least 1 (each iteration advances the cursor), and the
properties proved below hold for every fuel value.
-/

/-- Best cut point of the source: max of the last '.', newline and space at
or before endPos (each -1 when absent). -/
def bestCutPoint (s : Str) (endPos : ℕ) : ℤ :=
  max (lastIndexOf s '.' endPos) (max (lastIndexOf s '\n' endPos) (lastIndexOf s ' ' endPos))

/-- One pass of the splitIntoChunks while-loop, with fuel. -/
def splitLoop (s : Str) (maxChars : ℕ) : ℕ → ℕ → List Str
  | 0, _ => []
  | fuel + 1, currentPos =>
    if currentPos < s.length then
      let endPos0 := min (currentPos + maxChars) s.length
      let endPos :=
        if endPos0 < s.length then
          let bc := bestCutPoint s endPos0
          if 5 * bc > 5 * (currentPos : ℤ) + 4 * (maxChars : ℤ) then (bc + 1).toNat
          else endPos0
        else endPos0
      let chunk := jsTrim (jsSubstring s currentPos endPos)
      if 0 < chunk.length then chunk :: splitLoop s maxChars fuel endPos
      else splitLoop s maxChars fuel endPos
    else []

/-- TextSplitter.splitIntoChunks. -/
def splitIntoChunks (s : Str) (maxChars : ℕ) : List Str :=
  splitLoop s maxChars s.length 0

/-- The maximal runs of characters containing no '.', newline or space;
used to state the unbroken-token side condition of the chunk-length claim. -/
def isChunkSeparator (c : Char) : Bool :=
  c == '.' || c == '\n' || c == ' '

/-- Split a string at its separator characters, keeping the nonempty runs. -/
def tokenRuns (s : Str) : List Str :=
  (s.splitOnP isChunkSeparator).filter fun t => 0 < t.length

theorem jsTrim_length_le (s : Str) : (jsTrim s).length ≤ s.length := by
  unfold jsTrim
  calc ((s.dropWhile isJSWhitespace).reverse.dropWhile isJSWhitespace).reverse.length
      = ((s.dropWhile isJSWhitespace).reverse.dropWhile isJSWhitespace).length := by
        simp
    _ ≤ (s.dropWhile isJSWhitespace).reverse.length :=
        (List.dropWhile_sublist _).length_le
    _ = (s.dropWhile isJSWhitespace).length := by simp
    _ ≤ s.length := (List.dropWhile_sublist _).length_le

theorem jsSubstring_length_le (s : Str) (a b : ℕ) :
    (jsSubstring s a b).length ≤ b - a := by
  unfold jsSubstring
  simp only [List.length_drop, List.length_take]
  omega

theorem lastIndexOf_le (s : Str) (c : Char) (f : ℕ) : lastIndexOf s c f ≤ (f : ℤ) := by
  induction f with
  | zero =>
    unfold lastIndexOf
    split <;> omega
  | succ f ih =>
    unfold lastIndexOf
    split
    · omega
    · omega


theorem bestCutPoint_le (s : Str) (endPos : ℕ) : bestCutPoint s endPos ≤ (endPos : ℤ) := by
  unfold bestCutPoint
  exact max_le (lastIndexOf_le _ _ _)
    (max_le (lastIndexOf_le _ _ _) (lastIndexOf_le _ _ _))

theorem splitLoop_chunk_length_le (s : Str) (maxChars fuel currentPos : ℕ) :
    ∀ ch ∈ splitLoop s maxChars fuel currentPos, ch.length ≤ maxChars + 1 := by
  induction fuel generalizing currentPos with
  | zero => intro ch hch; simp [splitLoop] at hch
  | succ fuel ih =>
    intro ch hch
    unfold splitLoop at hch
    by_cases hpos : currentPos < s.length
    · simp only [if_pos hpos] at hch
      set endPos0 := min (currentPos + maxChars) s.length with hE0
      set endPos :=
        if endPos0 < s.length then
          let bc := bestCutPoint s endPos0
          if 5 * bc > 5 * (currentPos : ℤ) + 4 * (maxChars : ℤ) then (bc + 1).toNat
          else endPos0
        else endPos0 with hE
      have hEle : endPos ≤ currentPos + maxChars + 1 := by
        rw [hE]
        by_cases h1 : endPos0 < s.length
        · simp only [if_pos h1]
          by_cases h2 : 5 * bestCutPoint s endPos0 > 5 * (currentPos : ℤ) + 4 * (maxChars : ℤ)
          · simp only [if_pos h2]
            have hbc : bestCutPoint s endPos0 ≤ (endPos0 : ℤ) := bestCutPoint_le s endPos0
            have hE0le : endPos0 ≤ currentPos + maxChars := by omega
            omega
          · simp only [if_neg h2]; omega
        · simp only [if_neg h1]; omega
      have hchunk : (jsTrim (jsSubstring s currentPos endPos)).length ≤ maxChars + 1 := by
        have h1 := jsTrim_length_le (jsSubstring s currentPos endPos)
        have h2 := jsSubstring_length_le s currentPos endPos
        omega
      by_cases h3 : 0 < (jsTrim (jsSubstring s currentPos endPos)).length
      · simp only [if_pos h3, List.mem_cons] at hch
        rcases hch with rfl | hch
        · exact hchunk
        · exact ih endPos ch hch
      · simp only [if_neg h3] at hch
        exact ih endPos ch hch
    · simp only [if_neg hpos] at hch
      simp at hch

/-- C1 (amended). Every chunk produced by splitIntoChunks has length at most
maxChars + 1 (for any positive maxChars and any text); the extra character
appears exactly when an accepted boundary character sits at position
cursor + maxChars, since the chunk extends one past the boundary.  There is
no unbroken-token exception: a token longer than maxChars is hard-cut. -/
theorem splitIntoChunks_length_le (s : Str) (maxChars : ℕ) (_hmax : 1 ≤ maxChars) :
    ∀ ch ∈ splitIntoChunks s maxChars, ch.length ≤ maxChars + 1 := by
  intro ch hch
  exact splitLoop_chunk_length_le s maxChars s.length 0 ch hch

/-- Witness for the amended C1 theorem at a concrete input. -/
theorem splitIntoChunks_length_le_witness :
    1 ≤ 2 ∧ ∀ ch ∈ splitIntoChunks ['a', 'b', '.', 'x', 'y'] 2, ch.length ≤ 2 + 1 :=
  ⟨by decide, splitIntoChunks_length_le ['a', 'b', '.', 'x', 'y'] 2 (by decide)⟩

/-- C1 counterexample. On the five-character text "ab.xy" with maxChars = 2
the first chunk is "ab." of length 3 > 2, although no unbroken token of the
text (the tokens are "ab" and "xy") exceeds 2 characters: the claimed bound
of maxChars fails even without an oversized token. -/
theorem splitIntoChunks_length_claim_false :
    splitIntoChunks ['a', 'b', '.', 'x', 'y'] 2 = [['a', 'b', '.'], ['x', 'y']] ∧
    (∃ ch ∈ splitIntoChunks ['a', 'b', '.', 'x', 'y'] 2, 2 < ch.length) ∧
    (∀ t ∈ tokenRuns ['a', 'b', '.', 'x', 'y'], t.length ≤ 2) := by
  refine ⟨by decide, ⟨['a', 'b', '.'], by decide⟩, by decide⟩

/-!
## SimilarityCalculator (src/packages/core/src/utils/similarity.ts)

Vector values are IEEE doubles in the source; here the finite values are
reals, and JSNum adjoins the special results NaN and the signed infinities
that JS division by zero produces.
-/

/-- Result of a JS floating-point computation: a finite value, NaN, or a
signed infinity. -/
inductive JSNum where
  | num (x : ℝ)
  | nan
  | inf
  | ninf

/-- JS division a / b: the finite quotient when b is nonzero, NaN for 0 / 0,
and a signed infinity for a / 0 with a nonzero. -/
noncomputable def jsDiv (a b : ℝ) : JSNum :=
  if b = 0 then
    if a = 0 then JSNum.nan else if 0 < a then JSNum.inf else JSNum.ninf
  else JSNum.num (a / b)

/-- Dot product accumulated by the cosineSimilarity loop. -/
def dotProduct (a b : List ℝ) : ℝ := (List.zipWith (fun x y => x * y) a b).sum

/-- Squared norm accumulated by the cosineSimilarity loop (normA, normB). -/
def sumSquares (a : List ℝ) : ℝ := (a.map fun x => x * x).sum

/-- SimilarityCalculator.cosineSimilarity: error on a length mismatch, else
dot(a,b) divided by sqrt(normA) * sqrt(normB). -/
noncomputable def cosineSimilarity (vecA vecB : List ℝ) : Except String JSNum :=
  if vecA.length = vecB.length then
    Except.ok (jsDiv (dotProduct vecA vecB)
      (Real.sqrt (sumSquares vecA) * Real.sqrt (sumSquares vecB)))
  else Except.error "Vectors must have the same length"

/-- SimilarityCalculator.averageEmbeddings: error on an empty list, a single
element is returned as is, otherwise dimension-checked element-wise mean.
The caching layer moves vectors around without real arithmetic, so vector
entries are modelled there by exact rationals. -/
def averageEmbeddings (embeddings : List (List ℚ)) : Except String (List ℚ) :=
  match embeddings with
  | [] => Except.error "Cannot average empty embeddings array"
  | [e] => Except.ok e
  | e0 :: rest =>
    if (e0 :: rest).all fun e => e.length == e0.length then
      Except.ok
        ((rest.foldl (fun acc e => List.zipWith (fun x y => x + y) acc e) e0).map
          fun x => x / ((rest.length : ℚ) + 1))
    else Except.error "All embeddings must have the same dimension"

theorem sumSquares_nonneg (a : List ℝ) : 0 ≤ sumSquares a := by
  unfold sumSquares
  induction a with
  | nil => simp
  | cons x xs ih =>
    simp only [List.map_cons, List.sum_cons]
    nlinarith [mul_self_nonneg x]

theorem sumSquares_eq_zero {a : List ℝ} (h : sumSquares a = 0) : ∀ x ∈ a, x = 0 := by
  induction a with
  | nil => intro x hx; simp at hx
  | cons y ys ih =>
    have hys : 0 ≤ sumSquares ys := sumSquares_nonneg ys
    have hy : 0 ≤ y * y := mul_self_nonneg y
    have hsum : y * y + sumSquares ys = 0 := by
      simpa [sumSquares] using h
    intro x hx
    rcases List.mem_cons.mp hx with rfl | hx
    · nlinarith
    · exact ih (by nlinarith) x hx

theorem dotProduct_eq_zero_left {a : List ℝ} (b : List ℝ) (h : ∀ x ∈ a, x = 0) :
    dotProduct a b = 0 := by
  induction a generalizing b with
  | nil => simp [dotProduct]
  | cons x xs ih =>
    cases b with
    | nil => simp [dotProduct]
    | cons y ys =>
      have hx : x = 0 := h x (List.mem_cons_self _ _)
      have := ih ys (fun z hz => h z (List.mem_cons_of_mem _ hz))
      simp only [dotProduct, List.zipWith_cons_cons, List.sum_cons] at this ⊢
      simp [hx, this]

theorem dotProduct_eq_zero_right (a : List ℝ) {b : List ℝ} (h : ∀ x ∈ b, x = 0) :
    dotProduct a b = 0 := by
  induction a generalizing b with
  | nil => simp [dotProduct]
  | cons x xs ih =>
    cases b with
    | nil => simp [dotProduct]
    | cons y ys =>
      have hy : y = 0 := h y (List.mem_cons_self _ _)
      have := ih (fun z hz => h z (List.mem_cons_of_mem _ hz))
      simp only [dotProduct, List.zipWith_cons_cons, List.sum_cons] at this ⊢
      simp [hy, this]

/-!
## Search data model and scoring
(src/packages/core/src/search/baseSearchProvider.ts)
-/

/-- Core Document record; metadata is an association list of string fields. -/
structure Document where
  id : Str
  content : Str
  metadata : List (Str × Str)
  embedding : Option (List ℝ)

/-- SearchResult produced per query. -/
structure SearchResult where
  id : Str
  content : Str
  metadata : List (Str × Str)
  similarity : JSNum

/-- JS comparison similarity >= threshold: false whenever the similarity is
NaN (NaN comparisons are always false in JS). -/
noncomputable def jsGe (a : JSNum) (t : ℝ) : Bool :=
  match a with
  | JSNum.num x => decide (t ≤ x)
  | JSNum.nan => false
  | JSNum.inf => true
  | JSNum.ninf => false

/-- BaseSearchProvider.calculateSimilarities: documents without an embedding
are skipped; a similarity-computation error skips the document (caught and
logged); a document is kept only when similarity >= minSimilarityThreshold. -/
noncomputable def calculateSimilarities (minSimilarityThreshold : ℝ)
    (queryEmbedding : List ℝ) : List Document → List SearchResult
  | [] => []
  | d :: ds =>
    let rest := calculateSimilarities minSimilarityThreshold queryEmbedding ds
    match d.embedding with
    | none => rest
    | some emb =>
      match cosineSimilarity queryEmbedding emb with
      | Except.error _ => rest
      | Except.ok sim =>
        if jsGe sim minSimilarityThreshold then
          ⟨d.id, d.content, d.metadata, sim⟩ :: rest
        else rest

theorem calculateSimilarities_no_nan (thr : ℝ) (q : List ℝ) (docs : List Document) :
    ∀ r ∈ calculateSimilarities thr q docs, r.similarity ≠ JSNum.nan := by
  induction docs with
  | nil => intro r hr; simp [calculateSimilarities] at hr
  | cons d ds ih =>
    intro r hr
    unfold calculateSimilarities at hr
    rcases hemb : d.embedding with _ | emb <;> simp only [hemb] at hr
    · exact ih r hr
    · rcases hcs : cosineSimilarity q emb with e | sim <;> simp only [hcs] at hr
      · exact ih r hr
      · by_cases hge : jsGe sim thr
        · simp only [if_pos hge, List.mem_cons] at hr
          rcases hr with rfl | hr
          · intro hn
            have hsim : sim = JSNum.nan := hn
            subst hsim
            simp [jsGe] at hge
          · exact ih r hr
        · simp only [if_neg hge] at hr
          exact ih r hr

/-- C3 (amended). When the vectors have equal length and either squared norm
is zero, cosineSimilarity returns NaN (0 / 0), not the sentinel 0; the search
scoring nevertheless keeps NaN out of the ranking because the threshold test
similarity >= minSimilarityThreshold is false for NaN, so no result produced
by calculateSimilarities carries a NaN similarity. -/
theorem cosineSimilarity_zero_norm_nan (vecA vecB : List ℝ)
    (hlen : vecA.length = vecB.length)
    (hzero : sumSquares vecA = 0 ∨ sumSquares vecB = 0) :
    cosineSimilarity vecA vecB = Except.ok JSNum.nan ∧
    ∀ (thr : ℝ) (q : List ℝ) (docs : List Document),
      ∀ r ∈ calculateSimilarities thr q docs, r.similarity ≠ JSNum.nan := by
  refine ⟨?_, fun thr q docs => calculateSimilarities_no_nan thr q docs⟩
  have hdot : dotProduct vecA vecB = 0 := by
    rcases hzero with h | h
    · exact dotProduct_eq_zero_left vecB (sumSquares_eq_zero h)
    · exact dotProduct_eq_zero_right vecA (sumSquares_eq_zero h)
  have hden : Real.sqrt (sumSquares vecA) * Real.sqrt (sumSquares vecB) = 0 := by
    rcases hzero with h | h
    · rw [h, Real.sqrt_zero, zero_mul]
    · rw [h, Real.sqrt_zero, mul_zero]
  unfold cosineSimilarity
  rw [if_pos hlen, hdot, hden]
  simp [jsDiv]

/-- Witness for the amended C3 theorem at the one-dimensional vectors. -/
theorem cosineSimilarity_zero_norm_nan_witness :
    ([(0 : ℝ)].length = [(1 : ℝ)].length) ∧
    (sumSquares [(0 : ℝ)] = 0 ∨ sumSquares [(1 : ℝ)] = 0) ∧
    (cosineSimilarity [(0 : ℝ)] [(1 : ℝ)] = Except.ok JSNum.nan ∧
      ∀ (thr : ℝ) (q : List ℝ) (docs : List Document),
        ∀ r ∈ calculateSimilarities thr q docs, r.similarity ≠ JSNum.nan) :=
  ⟨rfl, Or.inl (by norm_num [sumSquares]),
    cosineSimilarity_zero_norm_nan [(0 : ℝ)] [(1 : ℝ)] rfl
      (Or.inl (by norm_num [sumSquares]))⟩

/-- C3 counterexample. At the zero-norm pair a = [0], b = [1] the source
returns NaN (the JS result of 0 / 0), not the sentinel value 0 that the
claim asserts. -/
theorem cosineSimilarity_zero_norm_claim_false :
    cosineSimilarity [(0 : ℝ)] [(1 : ℝ)] = Except.ok JSNum.nan ∧
    (Except.ok JSNum.nan : Except String JSNum) ≠ Except.ok (JSNum.num 0) := by
  constructor
  · have hA : sumSquares [(0 : ℝ)] = 0 := by norm_num [sumSquares]
    have hdot : dotProduct [(0 : ℝ)] [(1 : ℝ)] = 0 := by norm_num [dotProduct]
    have hlen : ([(0 : ℝ)].length = [(1 : ℝ)].length) := rfl
    unfold cosineSimilarity
    rw [if_pos hlen, hA, hdot, Real.sqrt_zero, zero_mul]
    simp [jsDiv]
  · intro h
    have := Except.ok.inj h
    cases this

/-!
## Sorting and search options
(BaseSearchProvider.sortResultsBySimilarity / applySearchOptions, and the
option merging of KnowledgeManagementSystem.search)

Array.prototype.sort is stable (ECMA-262); with the comparator
(a, b) => b.similarity - a.similarity it is the stable descending sort by
similarity, modelled here as a stable insertion sort: a sorts strictly
before an earlier element y exactly when y.similarity < a.similarity.
-/

/-- JS strict comparison a < b on float results; false whenever NaN is
involved. -/
noncomputable def jsLt (a b : JSNum) : Bool :=
  match a, b with
  | JSNum.num x, JSNum.num y => decide (x < y)
  | JSNum.num _, JSNum.inf => true
  | JSNum.ninf, JSNum.num _ => true
  | JSNum.ninf, JSNum.inf => true
  | _, _ => false

/-- Stable descending insertion: x moves left past y only when y is strictly
smaller, so equal elements keep their original relative order. -/
noncomputable def insertDesc (x : SearchResult) : List SearchResult → List SearchResult
  | [] => [x]
  | y :: ys =>
    if jsLt y.similarity x.similarity then x :: y :: ys else y :: insertDesc x ys

/-- BaseSearchProvider.sortResultsBySimilarity: stable sort, descending by
similarity. -/
noncomputable def sortResultsBySimilarity (results : List SearchResult) : List SearchResult :=
  results.foldl (fun acc x => insertDesc x acc) []

/-- SearchOptions: all three fields are optional in the source. -/
structure SearchOptions where
  limit : Option ℤ
  minSimilarity : Option ℚ
  includeMetadata : Option Bool

/-- Minimum-similarity filter step of applySearchOptions (applied only when
options.minSimilarity is present). -/
noncomputable def filterByMinSimilarity (results : List SearchResult)
    (options : SearchOptions) : List SearchResult :=
  match options.minSimilarity with
  | none => results
  | some m => results.filter fun r => jsGe r.similarity (m : ℝ)

/-- BaseSearchProvider.applySearchOptions: filter by options.minSimilarity if
present, sort descending, slice to options.limit only if present, and strip
metadata when options.includeMetadata is exactly false. -/
noncomputable def applySearchOptions (results : List SearchResult)
    (options : SearchOptions) : List SearchResult :=
  let sorted := sortResultsBySimilarity (filterByMinSimilarity results options)
  let limited :=
    match options.limit with
    | none => sorted
    | some n => sorted.take n.toNat
  match options.includeMetadata with
  | some false => limited.map fun r => { r with metadata := [] }
  | _ => limited

/-- Option merging performed by KnowledgeManagementSystem.search before it
delegates to searchSimilar: spread of the defaults limit 5, minSimilarity
0.1, includeMetadata true under the caller's options. -/
def kmsSearchOptions (options : SearchOptions) : SearchOptions :=
  ⟨some (options.limit.getD 5), some (options.minSimilarity.getD (1 / 10)),
    some (options.includeMetadata.getD true)⟩

theorem jsLt_irrefl (a : JSNum) : jsLt a a = false := by
  cases a <;> simp [jsLt]

theorem jsLt_asymm {a b : JSNum} (h : jsLt a b = true) : jsLt b a = false := by
  cases a <;> cases b <;> simp [jsLt] at h ⊢ <;> linarith

theorem jsLt_trans {a b c : JSNum} (hab : jsLt a b = true) (hbc : jsLt b c = true) :
    jsLt a c = true := by
  cases a <;> cases b <;> cases c <;> simp [jsLt] at hab hbc ⊢ <;> linarith

theorem mem_insertDesc {z x : SearchResult} :
    ∀ {l : List SearchResult}, z ∈ insertDesc x l ↔ z = x ∨ z ∈ l
  | [] => by simp [insertDesc]
  | y :: ys => by
    unfold insertDesc
    by_cases hc : jsLt y.similarity x.similarity
    · simp [hc]
    · simp only [if_neg hc, List.mem_cons, mem_insertDesc (l := ys)]
      tauto

/-- Descending order of a result list, as produced by the comparator. -/
def ResultsSorted (l : List SearchResult) : Prop :=
  l.Pairwise fun a b => jsLt a.similarity b.similarity = false

theorem insertDesc_sorted {l : List SearchResult} (x : SearchResult)
    (h : ResultsSorted l) : ResultsSorted (insertDesc x l) := by
  induction l with
  | nil => simp [insertDesc, ResultsSorted]
  | cons y ys ih =>
    unfold ResultsSorted at h ⊢
    rcases List.pairwise_cons.mp h with ⟨hy, hys⟩
    unfold insertDesc
    by_cases hc : jsLt y.similarity x.similarity
    · simp only [if_pos hc]
      refine List.pairwise_cons.mpr ⟨?_, h⟩
      intro z hz
      rcases List.mem_cons.mp hz with rfl | hz
      · exact jsLt_asymm hc
      · by_cases hxz : jsLt x.similarity z.similarity
        · have : jsLt y.similarity z.similarity = true := jsLt_trans hc hxz
          rw [hy z hz] at this
          cases this
        · simpa using hxz
    · simp only [if_neg hc]
      refine List.pairwise_cons.mpr ⟨?_, ih hys⟩
      intro z hz
      rcases mem_insertDesc.mp hz with rfl | hz
      · simpa using hc
      · exact hy z hz

theorem sortResultsBySimilarity_aux_sorted (l : List SearchResult) :
    ∀ acc, ResultsSorted acc →
      ResultsSorted (l.foldl (fun acc x => insertDesc x acc) acc) := by
  induction l with
  | nil => intro acc h; simpa using h
  | cons x xs ih =>
    intro acc h
    simp only [List.foldl_cons]
    exact ih _ (insertDesc_sorted x h)

theorem sortResultsBySimilarity_sorted (l : List SearchResult) :
    ResultsSorted (sortResultsBySimilarity l) :=
  sortResultsBySimilarity_aux_sorted l [] (by simp [ResultsSorted])

/-- Equality of a result's similarity with a fixed value, as a Boolean
predicate (classically decidable; used only to state stability). -/
noncomputable def sameSimilarity (s : JSNum) (r : SearchResult) : Bool :=
  @decide (r.similarity = s) (Classical.propDecidable _)

theorem sameSimilarity_true {s : JSNum} {r : SearchResult} :
    sameSimilarity s r = true ↔ r.similarity = s := by
  unfold sameSimilarity
  exact @decide_eq_true_iff _ (Classical.propDecidable _)

theorem jsLt_congr_right {a b c : JSNum} (h : b = c) : jsLt a b = jsLt a c := by
  rw [h]

theorem filter_insertDesc (s : JSNum) (x : SearchResult) :
    ∀ {l : List SearchResult}, ResultsSorted l →
      (insertDesc x l).filter (sameSimilarity s) =
        l.filter (sameSimilarity s) ++ (if sameSimilarity s x then [x] else [])
  | [], _ => by
    by_cases hx : sameSimilarity s x <;> simp [insertDesc, List.filter_cons, hx]
  | y :: ys, h => by
    rcases List.pairwise_cons.mp h with ⟨hy, hys⟩
    unfold insertDesc
    by_cases hc : jsLt y.similarity x.similarity
    · simp only [if_pos hc]
      by_cases hx : sameSimilarity s x
      · have hxs : x.similarity = s := sameSimilarity_true.mp hx
        have hnone : ∀ z ∈ y :: ys, sameSimilarity s z = false := by
          intro z hz
          rcases List.mem_cons.mp hz with rfl | hz
          · by_contra hzs
            have hzs' : z.similarity = s :=
              sameSimilarity_true.mp (by revert hzs; cases sameSimilarity s z <;> simp)
            have : jsLt z.similarity x.similarity = false := by
              rw [hzs', ← hxs]; exact jsLt_irrefl _
            rw [this] at hc
            cases hc
          · by_contra hzs
            have hzs' : z.similarity = s :=
              sameSimilarity_true.mp (by revert hzs; cases sameSimilarity s z <;> simp)
            have hyx : jsLt y.similarity z.similarity = true := by
              rw [hzs', ← sameSimilarity_true.mp hx]; exact hc
            rw [hy z hz] at hyx
            cases hyx
        have hfilter : (y :: ys).filter (sameSimilarity s) = [] :=
          List.filter_eq_nil_iff.mpr (by intro z hz; rw [hnone z hz]; simp)
        simp [List.filter_cons, hx, hfilter]
      · have hx' : sameSimilarity s x = false := by
          revert hx; cases sameSimilarity s x <;> simp
        simp [List.filter_cons, hx']
    · simp only [if_neg hc]
      have ihres := filter_insertDesc s x hys
      by_cases hyp : sameSimilarity s y
      · simp [List.filter_cons, hyp, ihres]
      · have hyp' : sameSimilarity s y = false := by
          revert hyp; cases sameSimilarity s y <;> simp
        simp [List.filter_cons, hyp', ihres]

theorem sortResultsBySimilarity_aux_stable (s : JSNum) (l : List SearchResult) :
    ∀ acc, ResultsSorted acc →
      (l.foldl (fun acc x => insertDesc x acc) acc).filter (sameSimilarity s) =
        acc.filter (sameSimilarity s) ++ l.filter (sameSimilarity s) := by
  induction l with
  | nil => intro acc _; simp
  | cons x xs ih =>
    intro acc hacc
    simp only [List.foldl_cons]
    rw [ih _ (insertDesc_sorted x hacc), filter_insertDesc s x hacc]
    by_cases hx : sameSimilarity s x
    · simp [List.filter_cons, hx]
    · have hx' : sameSimilarity s x = false := by
        revert hx; cases sameSimilarity s x <;> simp
      simp [List.filter_cons, hx']

/-- Stability of the modelled sort: elements of equal similarity appear in
the output in their original retrieval order. -/
theorem sortResultsBySimilarity_stable (s : JSNum) (l : List SearchResult) :
    (sortResultsBySimilarity l).filter (sameSimilarity s) =
      l.filter (sameSimilarity s) := by
  unfold sortResultsBySimilarity
  rw [sortResultsBySimilarity_aux_stable s l [] (by simp [ResultsSorted])]
  simp

theorem length_insertDesc (x : SearchResult) :
    ∀ (l : List SearchResult), (insertDesc x l).length = l.length + 1
  | [] => rfl
  | y :: ys => by
    unfold insertDesc
    by_cases hc : jsLt y.similarity x.similarity
    · simp [hc]
    · simp only [if_neg hc, List.length_cons, length_insertDesc x ys]

theorem length_sortResultsBySimilarity (l : List SearchResult) :
    (sortResultsBySimilarity l).length = l.length := by
  unfold sortResultsBySimilarity
  suffices h : ∀ acc, (l.foldl (fun acc x => insertDesc x acc) acc).length =
      acc.length + l.length by
    simpa using h []
  induction l with
  | nil => intro acc; simp
  | cons x xs ih =>
    intro acc
    simp only [List.foldl_cons]
    rw [ih (insertDesc x acc), length_insertDesc]
    simp only [List.length_cons]
    omega

/-- C2 (amended). applySearchOptions sorts the surviving results descending
by similarity with a stable sort (ties keep their original retrieval order)
but truncates only when options.limit is actually present: with no limit
nothing is sliced, so a bare searchSimilar call can return more than 5
results.  The default limit of 5 is supplied one level up, by
KnowledgeManagementSystem.search, which spreads limit 5 into the options
before delegating to searchSimilar. -/
theorem applySearchOptions_spec (results : List SearchResult) (options : SearchOptions) :
    ResultsSorted (applySearchOptions results options) ∧
    (∀ n, options.limit = some n →
      (applySearchOptions results options).length ≤ n.toNat) ∧
    (options.limit = none → (applySearchOptions results options).length =
      (filterByMinSimilarity results options).length) ∧
    (∀ s, (sortResultsBySimilarity results).filter (sameSimilarity s) =
      results.filter (sameSimilarity s)) ∧
    (kmsSearchOptions options).limit = some (options.limit.getD 5) := by
  have hbase : ResultsSorted (sortResultsBySimilarity (filterByMinSimilarity results options)) :=
    sortResultsBySimilarity_sorted _
  refine ⟨?_, ?_, ?_, fun s => sortResultsBySimilarity_stable s results, rfl⟩
  · unfold applySearchOptions
    rcases hL : options.limit with _ | n <;>
      rcases hM : options.includeMetadata with _ | b <;>
      simp only [hL, hM]
    · exact hbase
    · cases b
      · exact List.pairwise_map.mpr hbase
      · exact hbase
    · exact List.Pairwise.sublist (List.take_sublist _ _) hbase
    · cases b
      · exact List.pairwise_map.mpr (List.Pairwise.sublist (List.take_sublist _ _) hbase)
      · exact List.Pairwise.sublist (List.take_sublist _ _) hbase
  · intro n hn
    unfold applySearchOptions
    rcases hM : options.includeMetadata with _ | b <;> simp only [hn, hM]
    · simp only [List.length_take]
      omega
    · cases b <;> simp only [List.length_map, List.length_take] <;> omega
  · intro hn
    unfold applySearchOptions
    rcases hM : options.includeMetadata with _ | b <;> simp only [hn, hM]
    · exact length_sortResultsBySimilarity _
    · cases b <;>
        simp only [List.length_map] <;>
        exact length_sortResultsBySimilarity _

/-- Witness for the amended C2 theorem: with limit 3 at most 3 results come
back. -/
theorem applySearchOptions_spec_witness :
    (applySearchOptions [] ⟨some 3, none, none⟩).length ≤ (3 : ℤ).toNat :=
  (applySearchOptions_spec [] ⟨some 3, none, none⟩).2.1 3 rfl

/-- C2 counterexample. Six surviving results and an empty option set: the
claimed default truncation to 5 does not happen, all six results are
returned (the default of 5 exists only in the option merging of
KnowledgeManagementSystem.search, not in searchSimilar itself). -/
theorem applySearchOptions_no_default_limit :
    (applySearchOptions
        (List.replicate 6 ⟨[], [], [], JSNum.num 0⟩) ⟨none, none, none⟩).length = 6 ∧
    ¬((applySearchOptions
        (List.replicate 6 ⟨[], [], [], JSNum.num 0⟩) ⟨none, none, none⟩).length ≤ 5) := by
  have h : (applySearchOptions
      (List.replicate 6 ⟨[], [], [], JSNum.num 0⟩) ⟨none, none, none⟩).length = 6 := by
    unfold applySearchOptions filterByMinSimilarity
    simp only []
    rw [length_sortResultsBySimilarity]
    simp
  exact ⟨h, by omega⟩

/-!
## BaseEmbeddingProvider
(src/packages/core/src/embeddings/baseEmbeddingProvider.ts)

The md5 text hash used as the cache key is modelled by the text itself
(collision-free keying).  The backend oracle maps a chunk to the final
outcome of generateSingleEmbedding after its retry policy is exhausted:
either a vector, or the error propagated from the last attempt; the
inter-chunk rate-limiting delay has no effect on values.
-/

/-- Relevant fields of EmbeddingConfig. -/
structure EmbeddingConfig where
  maxCharsPerChunk : ℕ
  cacheSize : ℕ

/-- The embedding cache: an association list keyed by text, newest first. -/
abbrev EmbeddingCache := List (Str × List ℚ)

/-- BaseEmbeddingProvider.manageCacheSize: when the size exceeds the
configured maximum the source only logs a cleanup message; no entry is
removed in either branch. -/
def manageCacheSize (config : EmbeddingConfig) (cache : EmbeddingCache) : EmbeddingCache :=
  if config.cacheSize < cache.length then cache else cache

/-- Sequential chunk loop of generateMultiChunkEmbedding: chunks are sent to
the backend strictly in order and the first failure aborts the loop. -/
def embedChunks (backend : Str → Except String (List ℚ)) :
    List Str → Except String (List (List ℚ))
  | [] => Except.ok []
  | c :: cs =>
    match backend c with
    | Except.error e => Except.error e
    | Except.ok v =>
      match embedChunks backend cs with
      | Except.error e => Except.error e
      | Except.ok vs => Except.ok (v :: vs)

/-- BaseEmbeddingProvider.generateMultiChunkEmbedding: split, embed every
chunk in order, then aggregate with averageEmbeddings. -/
def generateMultiChunkEmbedding (config : EmbeddingConfig)
    (backend : Str → Except String (List ℚ)) (text : Str) : Except String (List ℚ) :=
  match embedChunks backend (splitIntoChunks text config.maxCharsPerChunk) with
  | Except.error e => Except.error e
  | Except.ok embs => averageEmbeddings embs

/-- BaseEmbeddingProvider.generateEmbedding: cache hit returns immediately;
otherwise single-chunk or multi-chunk generation, then the result is stored
in the cache and manageCacheSize runs. -/
def generateEmbedding (config : EmbeddingConfig)
    (backend : Str → Except String (List ℚ)) (cache : EmbeddingCache) (text : Str) :
    Except String (List ℚ) × EmbeddingCache :=
  match List.lookup text cache with
  | some v => (Except.ok v, cache)
  | none =>
    let r :=
      if text.length ≤ config.maxCharsPerChunk then backend text
      else generateMultiChunkEmbedding config backend text
    match r with
    | Except.error e => (Except.error e, cache)
    | Except.ok emb => (Except.ok emb, manageCacheSize config ((text, emb) :: cache))

theorem embedChunks_error_of_mem (backend : Str → Except String (List ℚ)) :
    ∀ {l : List Str}, (∃ c ∈ l, ∃ e, backend c = Except.error e) →
      ∃ e, embedChunks backend l = Except.error e
  | [], h => by simp at h
  | c :: cs, h => by
    unfold embedChunks
    rcases hb : backend c with e | v
    · exact ⟨e, rfl⟩
    · rcases h with ⟨c0, hc0, e0, he0⟩
      rcases List.mem_cons.mp hc0 with rfl | hc0
      · rw [hb] at he0; cases he0
      · obtain ⟨e1, he1⟩ := embedChunks_error_of_mem backend ⟨c0, hc0, e0, he0⟩
        rw [he1]
        exact ⟨e1, rfl⟩

/-- C4. On the multi-chunk path (cache miss, text longer than
maxCharsPerChunk): if the backend fails on any chunk, generateEmbedding
returns that failure and the cache is completely unchanged; and whenever
generateEmbedding succeeds, every chunk succeeded, the stored vector is
exactly the averageEmbeddings aggregate of the chunk vectors, and only that
aggregate entry is added to the cache. -/
theorem generateEmbedding_chunk_failure (config : EmbeddingConfig)
    (backend : Str → Except String (List ℚ)) (cache : EmbeddingCache) (text : Str)
    (hlong : config.maxCharsPerChunk < text.length)
    (hmiss : List.lookup text cache = none) :
    ((∃ c ∈ splitIntoChunks text config.maxCharsPerChunk, ∃ e, backend c = Except.error e) →
      ∃ e, generateEmbedding config backend cache text = (Except.error e, cache)) ∧
    (∀ emb cache2,
      generateEmbedding config backend cache text = (Except.ok emb, cache2) →
      ∃ embs,
        embedChunks backend (splitIntoChunks text config.maxCharsPerChunk) =
          Except.ok embs ∧
        averageEmbeddings embs = Except.ok emb ∧
        cache2 = manageCacheSize config ((text, emb) :: cache)) := by
  have hnotle : ¬(text.length ≤ config.maxCharsPerChunk) := by omega
  constructor
  · intro hfail
    obtain ⟨e, he⟩ := embedChunks_error_of_mem backend hfail
    refine ⟨e, ?_⟩
    unfold generateEmbedding
    rw [hmiss]
    simp only [if_neg hnotle]
    unfold generateMultiChunkEmbedding
    rw [he]
  · intro emb cache2 hok
    unfold generateEmbedding at hok
    rw [hmiss] at hok
    simp only [if_neg hnotle] at hok
    unfold generateMultiChunkEmbedding at hok
    rcases hec : embedChunks backend (splitIntoChunks text config.maxCharsPerChunk)
      with e | embs
    · rw [hec] at hok
      cases hok
    · rw [hec] at hok
      rw [show (match (Except.ok embs : Except String (List (List ℚ))) with
          | Except.error e => (Except.error e : Except String (List ℚ))
          | Except.ok embs => averageEmbeddings embs) = averageEmbeddings embs from rfl]
        at hok
      rcases hav : averageEmbeddings embs with e | v
      · rw [hav] at hok; cases hok
      · rw [hav] at hok
        obtain ⟨h1, h2⟩ := Prod.mk.injEq .. ▸ hok
        exact ⟨embs, rfl, by rw [hav, Except.ok.inj h1], by rw [← h2, Except.ok.inj h1]⟩

/-- Witness for the C4 theorem: a two-chunk text whose backend always
fails. -/
theorem generateEmbedding_chunk_failure_witness :
    ∃ e, generateEmbedding ⟨1, 100⟩ (fun _ => Except.error "boom") [] ['a', 'b'] =
      (Except.error e, []) :=
  (generateEmbedding_chunk_failure ⟨1, 100⟩ (fun _ => Except.error "boom") [] ['a', 'b']
      (by decide) rfl).1
    ⟨['a'], by decide, "boom", rfl⟩

/-- C5 (code bug). manageCacheSize is a no-op even when the cache exceeds
the configured maximum: the source's size check only logs a message, so the
cache is returned unchanged and old entries are never pruned, contradicting
the method's own doc comment (remove oldest entries) and the specified
pruning behaviour. -/
theorem manageCacheSize_no_prune (config : EmbeddingConfig) (cache : EmbeddingCache)
    (hover : config.cacheSize < cache.length) :
    manageCacheSize config cache = cache := by
  unfold manageCacheSize
  rw [if_pos hover]

/-- Witness for the C5 theorem: a cache of two entries with a configured
maximum of one stays at two entries. -/
theorem manageCacheSize_no_prune_witness :
    (1 : ℕ) < ([(['a'], [(1 : ℚ)]), (['b'], [(2 : ℚ)])] : EmbeddingCache).length ∧
    manageCacheSize ⟨8000, 1⟩ [(['a'], [(1 : ℚ)]), (['b'], [(2 : ℚ)])] =
      [(['a'], [(1 : ℚ)]), (['b'], [(2 : ℚ)])] :=
  ⟨by decide, manageCacheSize_no_prune ⟨8000, 1⟩ _ (by decide)⟩

theorem jsTrim_all_whitespace {l : Str} (h : ∀ c ∈ l, isJSWhitespace c = true) :
    jsTrim l = [] := by
  unfold jsTrim
  rw [List.dropWhile_eq_nil_iff.mpr h]
  simp

theorem splitLoop_all_whitespace (s : Str) (maxChars : ℕ)
    (h : ∀ c ∈ s, isJSWhitespace c = true) :
    ∀ (fuel currentPos : ℕ), splitLoop s maxChars fuel currentPos = [] := by
  intro fuel
  induction fuel with
  | zero => intro currentPos; rfl
  | succ fuel ih =>
    intro currentPos
    unfold splitLoop
    by_cases hpos : currentPos < s.length
    · simp only [if_pos hpos]
      have hsub : ∀ c ∈ jsSubstring s currentPos
          (if min (currentPos + maxChars) s.length < s.length then
            if 5 * bestCutPoint s (min (currentPos + maxChars) s.length) >
                5 * (currentPos : ℤ) + 4 * (maxChars : ℤ) then
              (bestCutPoint s (min (currentPos + maxChars) s.length) + 1).toNat
            else min (currentPos + maxChars) s.length
          else min (currentPos + maxChars) s.length), isJSWhitespace c = true := by
        intro c hc
        exact h c (List.take_subset _ _ (List.drop_subset _ _ hc))
      rw [jsTrim_all_whitespace hsub]
      simp [ih]
    · simp only [if_neg hpos]

/-- Chunking a whitespace-only text yields no chunks at all: every chunk
trims to the empty string and is dropped. -/
theorem splitIntoChunks_all_whitespace (s : Str) (maxChars : ℕ)
    (h : ∀ c ∈ s, isJSWhitespace c = true) :
    splitIntoChunks s maxChars = [] :=
  splitLoop_all_whitespace s maxChars h s.length 0

/-- C10. A whitespace-only text longer than maxCharsPerChunk takes the
multi-chunk path on a cache miss, the splitter returns no chunks, and
averaging the empty embedding list fails with the empty-input error, which
generateEmbedding propagates with an unchanged cache. -/
theorem generateEmbedding_whitespace_error (config : EmbeddingConfig)
    (backend : Str → Except String (List ℚ)) (cache : EmbeddingCache) (text : Str)
    (hws : ∀ c ∈ text, isJSWhitespace c = true)
    (hlong : config.maxCharsPerChunk < text.length)
    (hmiss : List.lookup text cache = none) :
    generateEmbedding config backend cache text =
      (Except.error "Cannot average empty embeddings array", cache) := by
  have hnotle : ¬(text.length ≤ config.maxCharsPerChunk) := by omega
  unfold generateEmbedding
  rw [hmiss]
  simp only [if_neg hnotle]
  unfold generateMultiChunkEmbedding
  rw [splitIntoChunks_all_whitespace text config.maxCharsPerChunk hws]
  rfl

/-- Witness for the C10 theorem: two spaces with a one-character chunk
limit. -/
theorem generateEmbedding_whitespace_error_witness :
    generateEmbedding ⟨1, 100⟩ (fun _ => Except.ok [(1 : ℚ)]) [] [' ', ' '] =
      (Except.error "Cannot average empty embeddings array", []) :=
  generateEmbedding_whitespace_error ⟨1, 100⟩ (fun _ => Except.ok [(1 : ℚ)]) [] [' ', ' ']
    (by decide) (by decide) rfl

/-!
## VectorSearchProvider
(src/packages/core/src/search/vectorSearchProvider.ts)

The provider keeps a heterogeneous documentCache Map<string, any> holding
the 'all_documents' entry, its 'all_documents_timestamp', and one
'<searchKey>_timestamp' entry per search-cache key, plus a searchCache map.
The embedding splits the heterogeneous map by key shape into three
homogeneous components.  The string search-cache keys (normalized query
plus JSON-serialized option values) are modelled by a structured key that
the serialisation encodes injectively.  Times are in milliseconds.
-/

/-- Structured form of the createSearchCacheKey string. -/
structure SearchCacheKey where
  queryNorm : Str
  limit : ℤ
  minSimilarity : ℚ
  includeMetadata : Bool
deriving DecidableEq

/-- BaseSearchProvider.createSearchCacheKey: lowercased trimmed query plus
the serialized option values; the JS || defaults make the values limit 0 and
minSimilarity 0 fall back to 5 and the provider threshold respectively. -/
def createSearchCacheKey (minSimilarityThreshold : ℚ) (query : Str)
    (options : SearchOptions) : SearchCacheKey where
  queryNorm := jsTrim (query.map Char.toLower)
  limit :=
    match options.limit with
    | some l => if l = 0 then 5 else l
    | none => 5
  minSimilarity :=
    match options.minSimilarity with
    | some m => if m = 0 then minSimilarityThreshold else m
    | none => minSimilarityThreshold
  includeMetadata := options.includeMetadata != some false

/-- VectorSearchProvider.cacheTTL: the single hardcoded 30-minute TTL (in
milliseconds) used for both the document cache and the search cache. -/
def cacheTTL : ℕ := 30 * 60 * 1000

/-- Cache state of a VectorSearchProvider instance. -/
structure VSPState where
  docCacheDocs : Option (List Document)
  docCacheTimestamp : Option ℕ
  searchTimestamps : List (SearchCacheKey × ℕ)
  searchCache : List (SearchCacheKey × List SearchResult)

/-- VectorSearchProvider.isCacheValid applied to 'all_documents'. -/
def isDocCacheValid (s : VSPState) (now : ℕ) : Bool :=
  match s.docCacheTimestamp with
  | none => false
  | some t => decide ((now : ℤ) - (t : ℤ) < (cacheTTL : ℤ))

/-- VectorSearchProvider.isCacheValid applied to a search-cache key. -/
def isSearchCacheValid (s : VSPState) (key : SearchCacheKey) (now : ℕ) : Bool :=
  match List.lookup key s.searchTimestamps with
  | none => false
  | some t => decide ((now : ℤ) - (t : ℤ) < (cacheTTL : ℤ))

/-- Error taxonomy of the search path. -/
inductive SearchError where
  | emptyQuery
  | queryTooLong
  | invalidLimit
  | invalidMinSimilarity
  | embeddingFailed (msg : String)
  | storageFailed (msg : String)

/-- Validation errors are the ones raised by validateQuery and
validateOptions before any I/O. -/
def SearchError.isValidation : SearchError → Bool
  | SearchError.emptyQuery => true
  | SearchError.queryTooLong => true
  | SearchError.invalidLimit => true
  | SearchError.invalidMinSimilarity => true
  | SearchError.embeddingFailed _ => false
  | SearchError.storageFailed _ => false

/-- BaseSearchProvider.validateQuery: empty or whitespace-only queries are
rejected (an empty JS string is falsy and also trims to length 0), then
queries longer than 10,000 characters. -/
def validateQuery (query : Str) : Option SearchError :=
  if (jsTrim query).length = 0 then some SearchError.emptyQuery
  else if 10000 < query.length then some SearchError.queryTooLong
  else none

/-- Second check of BaseSearchProvider.validateOptions. -/
def validateMinSimilarityOpt (options : SearchOptions) : Option SearchError :=
  match options.minSimilarity with
  | some m => if m < 0 ∨ 1 < m then some SearchError.invalidMinSimilarity else none
  | none => none

/-- BaseSearchProvider.validateOptions: limit in [1, 100] when present,
minSimilarity in [0, 1] when present. -/
def validateOptions (options : SearchOptions) : Option SearchError :=
  match options.limit with
  | some l =>
    if l < 1 ∨ 100 < l then some SearchError.invalidLimit
    else validateMinSimilarityOpt options
  | none => validateMinSimilarityOpt options

/-- External collaborators of searchSimilar: the embedding provider and the
storage provider, each as the outcome the call would produce. -/
structure SearchEnv where
  embed : Str → Except String (List ℝ)
  storeDocs : Except String (List Document)

/-- Observable I/O calls issued during one searchSimilar invocation. -/
inductive CallEvent where
  | embedCall (text : Str)
  | storeCall

/-- Scoring tail of the search-miss path: score, apply options, store the
final list in the search cache and stamp its timestamp. -/
noncomputable def finishSearch (minSimilarityThreshold : ℚ) (s1 : VSPState)
    (queryEmbedding : List ℝ) (options : SearchOptions) (now : ℕ)
    (key : SearchCacheKey) (docs : List Document) :
    Except SearchError (List SearchResult) × VSPState :=
  let results :=
    calculateSimilarities ((minSimilarityThreshold : ℝ)) queryEmbedding docs
  let finalResults := applySearchOptions results options
  (Except.ok finalResults,
   { s1 with
      searchCache := (key, finalResults) :: s1.searchCache,
      searchTimestamps := (key, now) :: s1.searchTimestamps })

/-- Search-cache-miss path of VectorSearchProvider.searchSimilar: embed the
query, load documents through getDocumentsWithCache (document cache, or
storage refilling it and filtering to documents that carry an embedding),
then finish. -/
noncomputable def searchComputePath (minSimilarityThreshold : ℚ) (env : SearchEnv)
    (s : VSPState) (query : Str) (options : SearchOptions) (now : ℕ)
    (key : SearchCacheKey) :
    Except SearchError (List SearchResult) × VSPState × List CallEvent :=
  match env.embed query with
  | Except.error msg =>
    (Except.error (SearchError.embeddingFailed msg), s, [CallEvent.embedCall query])
  | Except.ok queryEmbedding =>
    if s.docCacheDocs.isSome && isDocCacheValid s now then
      let r := finishSearch minSimilarityThreshold s queryEmbedding options now key
        (s.docCacheDocs.getD [])
      (r.1, r.2, [CallEvent.embedCall query])
    else
      match env.storeDocs with
      | Except.error msg =>
        (Except.error (SearchError.storageFailed msg), s,
         [CallEvent.embedCall query, CallEvent.storeCall])
      | Except.ok ds =>
        let filtered := ds.filter fun d => d.embedding.isSome
        let s1 := { s with
          docCacheDocs := some filtered, docCacheTimestamp := some now }
        let r := finishSearch minSimilarityThreshold s1 queryEmbedding options now key
          filtered
        (r.1, r.2, [CallEvent.embedCall query, CallEvent.storeCall])

/-- VectorSearchProvider.searchSimilar: validate, then serve a live cached
entry, otherwise compute. -/
noncomputable def searchSimilar (minSimilarityThreshold : ℚ) (env : SearchEnv)
    (s : VSPState) (query : Str) (options : SearchOptions) (now : ℕ) :
    Except SearchError (List SearchResult) × VSPState × List CallEvent :=
  match validateQuery query with
  | some e => (Except.error e, s, [])
  | none =>
    match validateOptions options with
    | some e => (Except.error e, s, [])
    | none =>
      let key := createSearchCacheKey minSimilarityThreshold query options
      match List.lookup key s.searchCache with
      | some cached =>
        if isSearchCacheValid s key now then (Except.ok cached, s, [])
        else searchComputePath minSimilarityThreshold env s query options now key
      | none => searchComputePath minSimilarityThreshold env s query options now key

/-!
## KnowledgeManagementSystem configuration defaults
(src/knowledgeManagementSystem.ts constructor)
-/

/-- KnowledgeBaseConfig fields merged by the constructor. -/
structure KnowledgeBaseConfig where
  collection : String
  embeddingModel : String
  maxCacheSize : ℕ
  searchCacheTTL : ℕ
  documentCacheTTL : ℕ

/-- Defaults of the KnowledgeManagementSystem constructor (TTLs in
seconds). -/
def kmsDefaultConfig : KnowledgeBaseConfig where
  collection := "knowledge_base"
  embeddingModel := "text-embedding-004"
  maxCacheSize := 100
  searchCacheTTL := 1800
  documentCacheTTL := 3600

/-- C6 (amended). VectorSearchProvider uses the single hardcoded 30-minute
TTL (1,800,000 ms) for both the document cache and the search cache: an
entry of either cache is live exactly when its timestamp is within
1,800,000 ms of now.  The KnowledgeManagementSystem configuration defaults
documentCacheTTL = 3600 s and searchCacheTTL = 1800 s exist but are never
wired into the provider, so the document cache does not get its configured
3600 s lifetime. -/
theorem cacheTTL_shared (s : VSPState) (key : SearchCacheKey) (now : ℕ) :
    (isDocCacheValid s now = true ↔
      ∃ t, s.docCacheTimestamp = some t ∧ (now : ℤ) - (t : ℤ) < 1800000) ∧
    (isSearchCacheValid s key now = true ↔
      ∃ t, List.lookup key s.searchTimestamps = some t ∧
        (now : ℤ) - (t : ℤ) < 1800000) ∧
    cacheTTL = 1800 * 1000 ∧
    kmsDefaultConfig.documentCacheTTL = 3600 ∧
    kmsDefaultConfig.searchCacheTTL = 1800 := by
  refine ⟨?_, ?_, rfl, rfl, rfl⟩
  · unfold isDocCacheValid
    rcases h : s.docCacheTimestamp with _ | t
    · simp
    · simp only [decide_eq_true_eq]
      constructor
      · intro ht; exact ⟨t, rfl, by simpa [cacheTTL] using ht⟩
      · rintro ⟨t1, ht1, hlt⟩
        cases Option.some.inj ht1
        simpa [cacheTTL] using hlt
  · unfold isSearchCacheValid
    rcases h : List.lookup key s.searchTimestamps with _ | t
    · simp
    · simp only [decide_eq_true_eq]
      constructor
      · intro ht; exact ⟨t, rfl, by simpa [cacheTTL] using ht⟩
      · rintro ⟨t1, ht1, hlt⟩
        cases Option.some.inj ht1
        simpa [cacheTTL] using hlt

/-- Witness instantiating the C6 theorem at a concrete state. -/
theorem cacheTTL_shared_witness :
    cacheTTL = 1800 * 1000 ∧ kmsDefaultConfig.documentCacheTTL = 3600 :=
  ⟨(cacheTTL_shared ⟨none, none, [], []⟩ ⟨[], 5, 1 / 10, true⟩ 0).2.2.1,
   (cacheTTL_shared ⟨none, none, [], []⟩ ⟨[], 5, 1 / 10, true⟩ 0).2.2.2.1⟩

/-- C6 counterexample. A document-cache entry stamped at time 0 and read at
2,000,000 ms is treated as absent by the provider, although the claimed
documentCacheTTL default of 3600 s (3,600,000 ms) has not elapsed: the
document cache expires after 1800 s, not after the configured 3600 s. -/
theorem documentCacheTTL_claim_false :
    isDocCacheValid ⟨some [], some 0, [], []⟩ 2000000 = false ∧
    (2000000 : ℕ) < kmsDefaultConfig.documentCacheTTL * 1000 := by
  constructor
  · rfl
  · norm_num [kmsDefaultConfig]

/-- The inputs rejected by validateQuery and validateOptions: empty or
whitespace-only query, query longer than 10,000 characters, a present limit
outside [1, 100], or a present minSimilarity outside [0, 1]. -/
def badQueryOrOptions (query : Str) (options : SearchOptions) : Prop :=
  (jsTrim query).length = 0 ∨ 10000 < query.length ∨
    (∃ l, options.limit = some l ∧ (l < 1 ∨ 100 < l)) ∨
    (∃ m, options.minSimilarity = some m ∧ (m < 0 ∨ 1 < m))

theorem searchComputePath_error_not_validation (minSimilarityThreshold : ℚ)
    (env : SearchEnv) (s : VSPState) (query : Str) (options : SearchOptions)
    (now : ℕ) (key : SearchCacheKey) (e : SearchError)
    (h : (searchComputePath minSimilarityThreshold env s query options now key).1 =
      Except.error e) :
    e.isValidation = false := by
  unfold searchComputePath at h
  rcases he : env.embed query with msg | qe
  · rw [he] at h
    simp at h
    subst h
    rfl
  · rw [he] at h
    simp only at h
    by_cases hdc : (s.docCacheDocs.isSome && isDocCacheValid s now) = true
    · rw [if_pos hdc] at h
      simp [finishSearch] at h
    · rw [if_neg hdc] at h
      rcases hs : env.storeDocs with msg | ds
      · rw [hs] at h
        simp at h
        subst h
        rfl
      · rw [hs] at h
        simp [finishSearch] at h

/-- C7. searchSimilar rejects exactly the bad inputs with a validation
error, before any embedding or storage call (the call trace is empty and
the state untouched, so nothing is retried); on every input that passes the
checks, any error the call surfaces is a backend or storage failure, never
a validation error. -/
theorem searchSimilar_validation_spec (minSimilarityThreshold : ℚ) (env : SearchEnv)
    (s : VSPState) (query : Str) (options : SearchOptions) (now : ℕ) :
    (badQueryOrOptions query options →
      ∃ e, searchSimilar minSimilarityThreshold env s query options now =
        (Except.error e, s, []) ∧ e.isValidation = true) ∧
    (¬badQueryOrOptions query options →
      ∀ e, (searchSimilar minSimilarityThreshold env s query options now).1 =
          Except.error e → e.isValidation = false) := by
  constructor
  · intro hbad
    by_cases h1 : (jsTrim query).length = 0
    · refine ⟨SearchError.emptyQuery, ?_, rfl⟩
      have hq : validateQuery query = some SearchError.emptyQuery := by
        unfold validateQuery
        rw [if_pos h1]
      unfold searchSimilar
      rw [hq]
    · by_cases h2 : 10000 < query.length
      · refine ⟨SearchError.queryTooLong, ?_, rfl⟩
        have hq : validateQuery query = some SearchError.queryTooLong := by
          unfold validateQuery
          rw [if_neg h1, if_pos h2]
        unfold searchSimilar
        rw [hq]
      · have hq : validateQuery query = none := by
          unfold validateQuery
          rw [if_neg h1, if_neg h2]
        by_cases h3 : ∃ l, options.limit = some l ∧ (l < 1 ∨ 100 < l)
        · obtain ⟨l, hl, hrange⟩ := h3
          refine ⟨SearchError.invalidLimit, ?_, rfl⟩
          have hvo : validateOptions options = some SearchError.invalidLimit := by
            unfold validateOptions
            rw [hl]
            exact if_pos hrange
          unfold searchSimilar
          rw [hq, hvo]
        · have h4 : ∃ m, options.minSimilarity = some m ∧ (m < 0 ∨ 1 < m) := by
            rcases hbad with hb | hb | hb | hb
            · exact absurd hb h1
            · exact absurd hb h2
            · exact absurd hb h3
            · exact hb
          obtain ⟨m, hm, hmr⟩ := h4
          refine ⟨SearchError.invalidMinSimilarity, ?_, rfl⟩
          have hms : validateMinSimilarityOpt options =
              some SearchError.invalidMinSimilarity := by
            unfold validateMinSimilarityOpt
            rw [hm]
            exact if_pos hmr
          have hvo : validateOptions options = some SearchError.invalidMinSimilarity := by
            unfold validateOptions
            rcases hL : options.limit with _ | l
            · exact hms
            · have hin : ¬(l < 1 ∨ 100 < l) := fun hc => h3 ⟨l, hL, hc⟩
              exact (if_neg hin).trans hms
          unfold searchSimilar
          rw [hq, hvo]
  · intro hgood e he
    unfold badQueryOrOptions at hgood
    push_neg at hgood
    obtain ⟨hg1, hg2, hg3, hg4⟩ := hgood
    have hq : validateQuery query = none := by
      unfold validateQuery
      rw [if_neg hg1, if_neg (by omega : ¬10000 < query.length)]
    have hms : validateMinSimilarityOpt options = none := by
      unfold validateMinSimilarityOpt
      rcases hM : options.minSimilarity with _ | m
      · rfl
      · have hnm : ¬(m < 0 ∨ 1 < m) := by
          have hb := hg4 m hM
          rintro (hc | hc)
          · linarith [hb.1]
          · linarith [hb.2]
        exact if_neg hnm
    have hvo : validateOptions options = none := by
      unfold validateOptions
      rcases hL : options.limit with _ | l
      · exact hms
      · have hnl : ¬(l < 1 ∨ 100 < l) := by
          have hb := hg3 l hL
          omega
        exact (if_neg hnl).trans hms
    simp only [searchSimilar, hq, hvo] at he
    rcases hlk : List.lookup (createSearchCacheKey minSimilarityThreshold query options)
        s.searchCache with _ | cached
    · simp only [hlk] at he
      exact searchComputePath_error_not_validation _ _ _ _ _ _ _ _ he
    · simp only [hlk] at he
      by_cases hval : isSearchCacheValid s
          (createSearchCacheKey minSimilarityThreshold query options) now = true
      · rw [if_pos hval] at he
        simp at he
      · rw [if_neg hval] at he
        exact searchComputePath_error_not_validation _ _ _ _ _ _ _ _ he

/-- Witness for the C7 theorem: the empty query is rejected as a validation
error with no I/O, from a fresh provider state. -/
theorem searchSimilar_validation_spec_witness :
    ∃ e, searchSimilar (1 / 10) ⟨fun _ => Except.ok [], Except.ok []⟩
        ⟨none, none, [], []⟩ [] ⟨none, none, none⟩ 0 =
      (Except.error e, ⟨none, none, [], []⟩, []) ∧ e.isValidation = true :=
  (searchSimilar_validation_spec (1 / 10) ⟨fun _ => Except.ok [], Except.ok []⟩
      ⟨none, none, [], []⟩ [] ⟨none, none, none⟩ 0).1
    (Or.inl rfl)

theorem lookup_cons_self {α β : Type} [BEq α] [LawfulBEq α] (a : α) (b : β)
    (l : List (α × β)) : List.lookup a ((a, b) :: l) = some b := by
  simp [List.lookup]

theorem searchSimilar_cached_hit (thr : ℚ) (env : SearchEnv) (sA : VSPState)
    (query : Str) (options : SearchOptions) (t2 : ℕ) (key : SearchCacheKey)
    (cached : List SearchResult) (t : ℕ)
    (hq : validateQuery query = none) (hvo : validateOptions options = none)
    (hkey : createSearchCacheKey thr query options = key)
    (hlook : List.lookup key sA.searchCache = some cached)
    (hts : List.lookup key sA.searchTimestamps = some t)
    (hvalid : (t2 : ℤ) - (t : ℤ) < (cacheTTL : ℤ)) :
    searchSimilar thr env sA query options t2 = (Except.ok cached, sA, []) := by
  have hv : isSearchCacheValid sA key t2 = true := by
    unfold isSearchCacheValid
    rw [hts]
    exact decide_eq_true hvalid
  simp only [searchSimilar, hq, hvo, hkey, hlook, hv, if_true]

/-- C8. From any state with no cached entry for the key, a successful
searchSimilar call at time t1 followed by an identical call at time t2
within the 30-minute TTL window (with no intervening mutation) returns the
same result list, leaves the state untouched, and performs no embedding
and no storage call: the second call is served entirely from the search
cache. -/
theorem searchSimilar_second_call_cached (thr : ℚ) (env : SearchEnv) (s0 : VSPState)
    (query : Str) (options : SearchOptions) (t1 t2 : ℕ) (r : List SearchResult)
    (s1 : VSPState) (tr1 : List CallEvent)
    (hmiss : List.lookup (createSearchCacheKey thr query options) s0.searchCache = none)
    (h1 : searchSimilar thr env s0 query options t1 = (Except.ok r, s1, tr1))
    (_hle : t1 ≤ t2) (httl : t2 < t1 + cacheTTL) :
    searchSimilar thr env s1 query options t2 = (Except.ok r, s1, []) := by
  rcases hq : validateQuery query with _ | e
  · rcases hvo : validateOptions options with _ | e
    · simp only [searchSimilar, hq, hvo, hmiss] at h1
      unfold searchComputePath at h1
      rcases he : env.embed query with msg | qe
      · simp [he] at h1
      · simp only [he] at h1
        by_cases hdc : (s0.docCacheDocs.isSome && isDocCacheValid s0 t1) = true
        · rw [if_pos hdc] at h1
          simp only [finishSearch, Prod.mk.injEq, Except.ok.injEq] at h1
          obtain ⟨hr, hs1, htr⟩ := h1
          subst hs1
          rw [← hr]
          exact searchSimilar_cached_hit thr env _ query options t2
            (createSearchCacheKey thr query options) _ t1 hq hvo rfl
            (lookup_cons_self _ _ _) (lookup_cons_self _ _ _) (by omega)
        · rw [if_neg hdc] at h1
          rcases hs : env.storeDocs with msg | ds
          · simp [hs] at h1
          · simp only [hs] at h1
            simp only [finishSearch, Prod.mk.injEq, Except.ok.injEq] at h1
            obtain ⟨hr, hs1, htr⟩ := h1
            subst hs1
            rw [← hr]
            exact searchSimilar_cached_hit thr env _ query options t2
              (createSearchCacheKey thr query options) _ t1 hq hvo rfl
              (lookup_cons_self _ _ _) (lookup_cons_self _ _ _) (by omega)
    · simp only [searchSimilar, hq, hvo] at h1
      simp at h1
  · simp only [searchSimilar, hq] at h1
    simp at h1

/-- Witness for the C8 theorem: a fresh provider state, a first call at
time 0 (one embed call, one storage call), and an identical call at time 1
served from the cache. -/
theorem searchSimilar_second_call_cached_witness :
    searchSimilar (1 / 10) ⟨fun _ => Except.ok [], Except.ok []⟩
        ⟨some [], some 0, [(⟨['a'], 5, 1 / 10, true⟩, 0)], [(⟨['a'], 5, 1 / 10, true⟩, [])]⟩
        ['a'] ⟨none, none, none⟩ 1 =
      (Except.ok [],
       ⟨some [], some 0, [(⟨['a'], 5, 1 / 10, true⟩, 0)], [(⟨['a'], 5, 1 / 10, true⟩, [])]⟩,
       []) :=
  searchSimilar_second_call_cached (1 / 10) ⟨fun _ => Except.ok [], Except.ok []⟩
    ⟨none, none, [], []⟩ ['a'] ⟨none, none, none⟩ 0 1 []
    ⟨some [], some 0, [(⟨['a'], 5, 1 / 10, true⟩, 0)], [(⟨['a'], 5, 1 / 10, true⟩, [])]⟩
    [CallEvent.embedCall ['a'], CallEvent.storeCall]
    rfl rfl (by decide) (by decide)

/-!
## KnowledgeManagementSystem.updateDocument
(src/knowledgeManagementSystem.ts)

The storage provider is modelled as an association list from document id to
document (saveDocument prepends, getDocument takes the first match), the
embedding provider as an oracle from text to outcome.  Metadata objects are
association lists without duplicate keys; the JS object spread
left-to-right merge is jsSpread.  The ISO timestamp taken for updatedAt is
a parameter.
-/

/-- JS object spread of two objects: base keys keep their position with
values overridden by upd, and keys only in upd are appended in order. -/
def jsSpread (base upd : List (Str × Str)) : List (Str × Str) :=
  (base.map fun kv => (kv.1, (List.lookup kv.1 upd).getD kv.2)) ++
    upd.filter fun kv => (List.lookup kv.1 base).isNone

/-- Errors of the facade mutation path. -/
inductive KMSError where
  | notFound (id : Str)
  | embedFailed (msg : String)

/-- KnowledgeManagementSystem.updateDocument: NotFound on an unknown id;
content falls back to the stored one when absent or empty (JS falsy check);
metadata is the spread of the stored metadata, the supplied fields, and a
fresh updatedAt stamp; the embedding is regenerated only when a nonempty
content differing from the stored one is supplied; then the document is
persisted.  Returns the outcome, the new storage, and the list of texts
sent to the embedding provider. -/
def updateDocument (embedProvider : Str → Except String (List ℝ))
    (storage : List (Str × Document)) (id : Str)
    (contentOpt : Option Str) (metadataOpt : Option (List (Str × Str)))
    (nowIso : Str) :
    Except KMSError Unit × List (Str × Document) × List Str :=
  match List.lookup id storage with
  | none => (Except.error (KMSError.notFound id), storage, [])
  | some existingDoc =>
    let updatedContent :=
      match contentOpt with
      | some c => if c.length = 0 then existingDoc.content else c
      | none => existingDoc.content
    let updatedMetadata :=
      jsSpread (jsSpread existingDoc.metadata (metadataOpt.getD []))
        [("updatedAt".toList, nowIso)]
    let reembed :=
      match contentOpt with
      | some c => decide (c.length ≠ 0 ∧ c ≠ existingDoc.content)
      | none => false
    if reembed then
      match embedProvider updatedContent with
      | Except.error msg =>
        (Except.error (KMSError.embedFailed msg), storage, [updatedContent])
      | Except.ok emb =>
        (Except.ok (),
         (id, ⟨id, updatedContent, updatedMetadata, some emb⟩) :: storage,
         [updatedContent])
    else
      (Except.ok (),
       (id, ⟨id, updatedContent, updatedMetadata, existingDoc.embedding⟩) :: storage,
       [])

/-- C9 (amended). A metadata-only updateDocument fails with NotFound when
the id is unknown; otherwise it persists a document whose content and
embedding are exactly the stored ones, whose metadata is the JS spread of
the stored metadata with the supplied fields plus an updatedAt field
stamped with the update time (this stamp is the one departure from a pure
merge), and the embedding provider is never invoked. -/
theorem updateDocument_metadata_only (embedProvider : Str → Except String (List ℝ))
    (storage : List (Str × Document)) (id : Str) (meta : List (Str × Str))
    (nowIso : Str) :
    (List.lookup id storage = none →
      updateDocument embedProvider storage id none (some meta) nowIso =
        (Except.error (KMSError.notFound id), storage, [])) ∧
    (∀ existingDoc, List.lookup id storage = some existingDoc →
      updateDocument embedProvider storage id none (some meta) nowIso =
        (Except.ok (),
         (id, ⟨id, existingDoc.content,
           jsSpread (jsSpread existingDoc.metadata meta) [("updatedAt".toList, nowIso)],
           existingDoc.embedding⟩) :: storage,
         [])) := by
  constructor
  · intro hnone
    unfold updateDocument
    rw [hnone]
  · intro existingDoc hsome
    unfold updateDocument
    rw [hsome]
    rfl

/-- Witness for the C9 theorem: a one-document store updated with one new
metadata field. -/
theorem updateDocument_metadata_only_witness :
    updateDocument (fun _ => Except.error "unused")
        [(['d'], ⟨['d'], ['x'], [(['a'], ['1'])], none⟩)]
        ['d'] none (some [(['b'], ['2'])]) ['T'] =
      (Except.ok (),
       (['d'], ⟨['d'], ['x'],
         jsSpread (jsSpread [(['a'], ['1'])] [(['b'], ['2'])]) [("updatedAt".toList, ['T'])],
         none⟩) :: [(['d'], ⟨['d'], ['x'], [(['a'], ['1'])], none⟩)],
       []) :=
  (updateDocument_metadata_only (fun _ => Except.error "unused")
      [(['d'], ⟨['d'], ['x'], [(['a'], ['1'])], none⟩)] ['d'] [(['b'], ['2'])] ['T']).2
    ⟨['d'], ['x'], [(['a'], ['1'])], none⟩ rfl

/-- C9 counterexample. Under a metadata-only update the persisted metadata
is not the plain merge of the stored metadata with the supplied fields: the
code additionally stamps updatedAt with the update time, a key absent from
both the stored and supplied metadata in this input. -/
theorem updateDocument_metadata_merge_claim_false :
    List.lookup "updatedAt".toList
        (((updateDocument (fun _ => Except.error "unused")
            [(['d'], ⟨['d'], ['x'], [(['a'], ['1'])], none⟩)]
            ['d'] none (some [(['b'], ['2'])]) ['T']).2.1.headD
          (['d'], ⟨['d'], [], [], none⟩)).2.metadata) = some ['T'] ∧
    List.lookup "updatedAt".toList (jsSpread [(['a'], ['1'])] [(['b'], ['2'])]) = none := by
  constructor
  · rfl
  · rfl

end LufyKMS
